import Mathlib

/-!
Verification development for the steady-state solver of the OG-USA
overlapping-generations model (`Python/ogusa/SS.py`).

The Python source is shallowly embedded here.  Machine floats are modelled by
the type `V` below: a rational number or the non-numeric value `nan`, with
IEEE-style comparison semantics (every ordered comparison involving `nan` is
false, `isnan` detects it).  Macro-level scalars, which the claims treat as
ordinary numbers, are modelled by `ℚ` directly.

External collaborators of `SS.py` that live in other modules of the repository
(`household.py`, `firm.py`, `tax.py`, `scipy.optimize.fsolve`) are not part of
the source under verification; they appear as universally quantified oracle
functions with the data flow of the call sites preserved.  The two helpers
from `utils.py` whose exact formulas the claims depend on
(`pct_diff_func`, `convex_combo`) are modelled from the spec, as marked.

Source-fidelity notes, recorded once here:
* `SS.py` line 245 contains a malformed, dead assignment
  (`tax1_params = (J, S, retire, , )`) that is immediately superseded by the
  assignment on line 247; the embedding uses the line-247 value.
* Several functions of `SS.py` are mid-refactor: their bodies read names
  (`j`, `chi_b`, `tax_params`, `b_guess_init`, ...) that the commented-out
  original signatures (lines 144-145, 439-440) and every call site still
  supply as arguments.  The embedding follows that effective call contract.
-/

/-- Value of a machine float: a rational number or the non-numeric `nan`. -/
inductive V where
  | nan : V
  | num : ℚ → V
deriving DecidableEq, Repr

/-- IEEE-style strict less-than: false whenever either side is `nan`
(this is how `numpy` evaluates `x < y` elementwise). -/
def V.lt : V → V → Bool
  | V.num a, V.num b => decide (a < b)
  | _, _ => false

/-- IEEE-style less-or-equal: false whenever either side is `nan`. -/
def V.le : V → V → Bool
  | V.num a, V.num b => decide (a ≤ b)
  | _, _ => false

/-- Test for the non-numeric value, as `np.isnan`. -/
def V.isnan : V → Bool
  | V.nan => true
  | V.num _ => false

/-- Absolute value, propagating `nan` as `np.abs` does. -/
def V.abs : V → V
  | V.nan => V.nan
  | V.num a => V.num |a|

/-- Binary maximum, propagating `nan` as `numpy` array `.max()` does. -/
def V.max : V → V → V
  | V.nan, _ => V.nan
  | _, V.nan => V.nan
  | V.num a, V.num b => V.num (Max.max a b)

/-- Maximum of a list of floats in the style of `numpy.ndarray.max`:
`nan` if any entry is `nan`.  The empty case (which raises in `numpy`)
is given the junk value `num 0`; no theorem relies on it. -/
def vmaxList : List V → V
  | [] => V.num 0
  | h :: t => t.foldl V.max h

/-- Sentinel penalty written into infeasible residual entries
(`1e14` in `SS.py` lines 240-244 and 253, and in `function_to_minimize`). -/
def penalty : V := V.num 100000000000000

/-- External collaborators called by `Euler_equation_solver`
(`household.py` and `tax.py`, which are not part of the source under
verification).  Each field keeps the data flow of its call site in
`SS.py`; arguments that are loop-constant parameters of the model
(`omega`, `lambdas`, `rho`, `e`, tax-function coefficients, ...) are
absorbed into the oracle. -/
structure HHExt (S : ℕ) where
  /-- SS.py line 216: `household.get_BQ(r, b_splus1, omega, lambdas[j], rho, g_n_ss, 'SS')`. -/
  getBQ : ℚ → (Fin S → V) → V
  /-- SS.py line 218: `tax.replacement_rate_vals(n_guess, w, factor, theta_params)`. -/
  replacementRate : (Fin S → V) → ℚ → ℚ → V
  /-- SS.py lines 220-223: `household.euler_savings_func(w, r, e[:, j], n_guess, b_s, b_splus1, b_splus2, BQ, factor, T_H, chi_b[j], ..., theta, ...)`, a length-`S` vector of savings first-order-condition residuals. -/
  eulerSavings : ℚ → ℚ → (Fin S → V) → (Fin S → V) → (Fin S → V) → (Fin S → V) → V → ℚ → ℚ → V → (Fin S → V)
  /-- SS.py lines 225-228: `household.euler_labor_leisure_func(w, r, e[:, j], n_guess, b_s, b_splus1, BQ, factor, T_H, chi_n, ..., theta, ...)`, a length-`S` vector of labor-leisure residuals. -/
  eulerLabor : ℚ → ℚ → (Fin S → V) → (Fin S → V) → (Fin S → V) → V → ℚ → ℚ → V → (Fin S → V)
  /-- SS.py line 249: `tax.total_taxes(r, w, b_s, n_guess, BQ, factor, T_H, None, False, tax1_params)` with `theta` inside `tax1_params` (line 247). -/
  totalTaxes : ℚ → ℚ → (Fin S → V) → (Fin S → V) → V → ℚ → ℚ → V → (Fin S → V)
  /-- SS.py lines 250-251: `household.get_cons(r, b_s, w, e[:, j], n_guess, BQ, lambdas[j], b_splus1, params, tax1)`. -/
  getCons : ℚ → (Fin S → V) → ℚ → (Fin S → V) → V → (Fin S → V) → (Fin S → V) → (Fin S → V)

/-- SS.py line 210: `b_guess = np.array(guesses[:S])`. -/
def bGuessOf (S : ℕ) (guesses : Fin (2 * S) → V) : Fin S → V :=
  fun i => guesses ⟨i.val, by omega⟩

/-- SS.py line 211: `n_guess = np.array(guesses[S:])`. -/
def nGuessOf (S : ℕ) (guesses : Fin (2 * S) → V) : Fin S → V :=
  fun i => guesses ⟨S + i.val, by omega⟩

/-- SS.py line 212: `b_s = np.array([0] + list(b_guess[:-1]))`. -/
def bsOf (S : ℕ) (guesses : Fin (2 * S) → V) : Fin S → V :=
  fun i => if h : 0 < i.val then bGuessOf S guesses ⟨i.val - 1, by omega⟩ else V.num 0

/-- SS.py line 214: `b_splus2 = np.array(list(b_guess[1:]) + [0])`. -/
def bsplus2Of (S : ℕ) (guesses : Fin (2 * S) → V) : Fin S → V :=
  fun i => if h : i.val + 1 < S then bGuessOf S guesses ⟨i.val + 1, h⟩ else V.num 0

/-- SS.py line 216: the aggregate bequests `BQ` received by the ability group
(`b_splus1 = b_guess` by line 213). -/
def bqOf (S : ℕ) (ext : HHExt S) (guesses : Fin (2 * S) → V) (r : ℚ) : V :=
  ext.getBQ r (bGuessOf S guesses)

/-- SS.py line 218: the social-security replacement rate `theta`. -/
def thetaOf (S : ℕ) (ext : HHExt S) (guesses : Fin (2 * S) → V) (w factor : ℚ) : V :=
  ext.replacementRate (nGuessOf S guesses) w factor

/-- SS.py lines 220-223: `error1`, the raw savings Euler residual vector as
returned by `household.euler_savings_func`, before any penalty overwrite. -/
def rawSavingsOf (S : ℕ) (ext : HHExt S) (guesses : Fin (2 * S) → V)
    (r w T_H factor : ℚ) : Fin S → V :=
  ext.eulerSavings w r (nGuessOf S guesses) (bsOf S guesses) (bGuessOf S guesses)
    (bsplus2Of S guesses) (bqOf S ext guesses r) factor T_H (thetaOf S ext guesses w factor)

/-- SS.py lines 225-228: `error2`, the raw labor-leisure Euler residual vector
as returned by `household.euler_labor_leisure_func`, before any penalty
overwrite. -/
def rawLaborOf (S : ℕ) (ext : HHExt S) (guesses : Fin (2 * S) → V)
    (r w T_H factor : ℚ) : Fin S → V :=
  ext.eulerLabor w r (nGuessOf S guesses) (bsOf S guesses) (bGuessOf S guesses)
    (bqOf S ext guesses r) factor T_H (thetaOf S ext guesses w factor)

/-- SS.py lines 247-251: total taxes `tax1` and then consumption `cons` as the
budget residual (line 245 is a dead malformed assignment superseded by 247). -/
def consOf (S : ℕ) (ext : HHExt S) (guesses : Fin (2 * S) → V)
    (r w T_H factor : ℚ) : Fin S → V :=
  ext.getCons r (bsOf S guesses) w (nGuessOf S guesses) (bqOf S ext guesses r)
    (bGuessOf S guesses)
    (ext.totalTaxes r w (bsOf S guesses) (nGuessOf S guesses) (bqOf S ext guesses r)
      factor T_H (thetaOf S ext guesses w factor))

/-- Embedding of `Euler_equation_solver` (SS.py lines 146-256).
Computes the household Euler residuals for one ability type, then
overwrites infeasible entries with the sentinel `penalty`
(lines 235-244 and 252-253), and returns
`list(error1) + list(error2)` (line 256). -/
def Euler_equation_solver (S : ℕ) (ext : HHExt S) (guesses : Fin (2 * S) → V)
    (r w T_H factor ltilde : ℚ) : List V :=
  let b_guess := bGuessOf S guesses
  let n_guess := nGuessOf S guesses
  let error1 := rawSavingsOf S ext guesses r w T_H factor
  let error2 := rawLaborOf S ext guesses r w T_H factor
  -- lines 235-239: the feasibility masks
  let mask1 : Fin S → Bool := fun s => V.lt (n_guess s) (V.num 0)        -- n_guess < 0
  let mask2 : Fin S → Bool := fun s => V.lt (V.num ltilde) (n_guess s)   -- n_guess > ltilde
  let mask3 : Fin S → Bool := fun s => V.le (b_guess s) (V.num 0)        -- b_guess <= 0
  let mask4 : Fin S → Bool := fun s => V.isnan (n_guess s)               -- np.isnan(n_guess)
  let mask5 : Fin S → Bool := fun s => V.isnan (b_guess s)               -- np.isnan(b_guess)
  -- lines 240-244: sequential in-place overwrites with the sentinel
  let error2a : Fin S → V := fun s => if mask1 s then penalty else error2 s
  let error2b : Fin S → V := fun s => if mask2 s then penalty else error2a s
  let error1a : Fin S → V := fun s => if mask3 s then penalty else error1 s
  let error1b : Fin S → V := fun s => if mask5 s then penalty else error1a s
  let error2c : Fin S → V := fun s => if mask4 s then penalty else error2b s
  -- lines 252-253: mask6 = cons < 0; error1[mask6] = 1e14
  let cons := consOf S ext guesses r w T_H factor
  let mask6 : Fin S → Bool := fun s => V.lt (cons s) (V.num 0)
  let error1c : Fin S → V := fun s => if mask6 s then penalty else error1b s
  -- line 256: return list(error1.flatten()) + list(error2.flatten())
  List.ofFn error1c ++ List.ofFn error2c

/-- Modelled from the spec: `utils.pct_diff_func` (`utils.py` is not among the
source files).  Section 4.3 of the spec calls it the "relative percent
difference" between a newly implied value and the current value.  Division in
`ℚ` is total with `x / 0 = 0`; the source only ever relies on the value at a
nonzero denominator (the `T_H == 0` branch of `SS_solver` exists precisely to
avoid the zero-denominator case). -/
def pct_diff_func (x y : ℚ) : ℚ := |(x - y) / y|

/-- Modelled from the spec: `utils.convex_combo` (`utils.py` is not among the
source files).  Section 4.3: each aggregate "is updated as a convex
combination of its newly implied value and its prior value, weighted by a
damping parameter (closer to 1 favors the new value)". -/
def convex_combo (new old nu : ℚ) : ℚ := nu * new + (1 - nu) * old

/-- Accumulator of the per-ability-type inner loop of `SS_solver`
(SS.py lines 349-364), also reused verbatim by `SS_fsolve` (487-501) and
`SS_fsolve_reform` (601-615): the savings columns, the labor columns, and two
ghost traces recording the seed passed to each `opt.fsolve` call and the
`factor` argument passed alongside it in `args_`. -/
structure InnerAcc where
  b : List (List ℚ)
  n : List (List ℚ)
  seeds : List (List ℚ)
  freads : List ℚ
deriving DecidableEq, Repr

/-- Seed selection of SS.py lines 351-354: for `j = 0` the current global
columns of ability type 0, for `j >= 1` the columns of ability type `j-1`
(which the previous pass of the loop has just overwritten with its solution). -/
def seedFor (b n : List (List ℚ)) (j : ℕ) : List ℚ :=
  if j = 0 then b.getD 0 [] ++ n.getD 0 []
  else b.getD (j - 1) [] ++ n.getD (j - 1) []

/-- One pass of the inner loop (SS.py lines 349-364): build the warm-start
guess, call `opt.fsolve(Euler_equation_solver, guesses * .9, args=args_, ...)`
through the oracle `fsO` (which receives `j`, the `factor` carried in `args_`,
and the seed), and write the solution back into columns `j` of the savings and
labor matrices (`bssmat[:, j] = solutions[:S]`, `nssmat[:, j] = solutions[S:]`). -/
def innerStep (fsO : ℕ → ℚ → List ℚ → List ℚ) (S : ℕ) (factor : ℚ)
    (acc : InnerAcc) (j : ℕ) : InnerAcc :=
  let guesses := seedFor acc.b acc.n j
  let seed := guesses.map (fun x => x * (9 / 10))
  let sol := fsO j factor seed
  { b := acc.b.set j (sol.take S), n := acc.n.set j (sol.drop S),
    seeds := acc.seeds ++ [seed], freads := acc.freads ++ [factor] }

/-- The inner loop `for j in xrange(J)` of SS.py lines 349-364. -/
def innerLoop (fsO : ℕ → ℚ → List ℚ → List ℚ) (S : ℕ) (factor : ℚ)
    (b0 n0 : List (List ℚ)) (J : ℕ) : InnerAcc :=
  (List.range J).foldl (innerStep fsO S factor) ⟨b0, n0, [], []⟩

/-- Statement form of claim C6's seeding rule, written from the claim's words:
the seed for ability type 0 is 0.9 times the concatenation of the current
global guess columns for type 0; the seed for ability type `j+1` is 0.9 times
the concatenation of type `j`'s just-converged savings (`solutions[:S]`) and
labor (`solutions[S:]`) where `solutions` is what the root finder returned for
type `j`.  To be compared with the ghost `seeds` trace of `innerLoop`. -/
def seedSpec (fsO : ℕ → ℚ → List ℚ → List ℚ) (S : ℕ) (factor : ℚ)
    (b0 n0 : List (List ℚ)) : ℕ → List ℚ
  | 0 => (b0.getD 0 [] ++ n0.getD 0 []).map (fun x => x * (9 / 10))
  | j + 1 =>
    ((fsO j factor (seedSpec fsO S factor b0 n0 j)).take S ++
      (fsO j factor (seedSpec fsO S factor b0 n0 j)).drop S).map (fun x => x * (9 / 10))

/-- State of the outer fixed-point loop of `SS_solver`
(SS.py lines 330-345 initialize it; lines 346-415 iterate it).
`comps` is a ghost copy of the four entries of the distance array built on
lines 396-406 during the most recent iteration (empty before the first). -/
structure SSState where
  r : ℚ
  w : ℚ
  T_H : ℚ
  factor : ℚ
  nu : ℚ
  b : List (List ℚ)
  n : List (List ℚ)
  iter : ℕ
  distVec : List ℚ
  dist : ℚ
  comps : List ℚ
deriving DecidableEq, Repr

/-- Aggregation oracle for SS.py lines 366-389 (`household.get_K`,
`firm.get_L/get_Y/get_r/get_w`, the scaling factor from
`mean_income_data / average_income_model`, `household.get_BQ`,
`tax.replacement_rate_vals`, `tax.get_lump_sum`): from the updated savings
and labor matrices and the current `factor` (which line 389 passes to
`tax.get_lump_sum`) it returns `(new_r, new_w, new_factor, new_T_H)`. -/
def AggOracle : Type :=
  List (List ℚ) → List (List ℚ) → ℚ → ℚ × ℚ × ℚ × ℚ

/-- The four entries of the distance array of SS.py lines 395-406, in source
order `[pct r, pct w, pct-or-abs T_H, pct factor]`, where each percent
difference compares the newly implied value with the just-damped current
value, and the `T_H` entry degrades to an absolute difference when the damped
`T_H` is exactly zero. -/
def SS_comps (new_r new_w new_factor new_T_H r1 w1 factor1 T_H1 : ℚ) : List ℚ :=
  [pct_diff_func new_r r1,
   pct_diff_func new_w w1,
   if T_H1 ≠ 0 then pct_diff_func new_T_H T_H1 else |new_T_H - T_H1|,
   pct_diff_func new_factor factor1]

/-- One iteration of the outer `while` loop of `SS_solver`
(SS.py lines 346-415): run the inner loop, aggregate, damp the four macro
variables (lines 391-394), compute the convergence distance (lines 395-406),
record it in `dist_vec` (line 407), and halve `nu` when past the warm-up
window and the distance strictly increased (lines 410-413). -/
def SS_iter (fsO : ℕ → ℚ → List ℚ → List ℚ) (agg : AggOracle) (S J : ℕ)
    (st : SSState) : SSState :=
  let acc := innerLoop fsO S st.factor st.b st.n J
  let (new_r, new_w, new_factor, new_T_H) := agg acc.b acc.n st.factor
  let r1 := convex_combo new_r st.r st.nu
  let w1 := convex_combo new_w st.w st.nu
  let factor1 := convex_combo new_factor st.factor st.nu
  let T_H1 := convex_combo new_T_H st.T_H st.nu
  let comps := SS_comps new_r new_w new_factor new_T_H r1 w1 factor1 T_H1
  -- lines 396/403: dist = np.array([...]).max()
  let dist := Max.max (Max.max (Max.max (comps.getD 0 0) (comps.getD 1 0)) (comps.getD 2 0)) (comps.getD 3 0)
  let distVec1 := st.distVec ++ [dist]
  -- lines 410-413: if iteration > 10 and dist_vec[iteration] - dist_vec[iteration-1] > 0: nu /= 2.0
  let nu1 := if 10 < st.iter ∧ 0 < dist - st.distVec.getD (st.iter - 1) 0 then st.nu / 2 else st.nu
  { r := r1, w := w1, T_H := T_H1, factor := factor1, nu := nu1,
    b := acc.b, n := acc.n, iter := st.iter + 1, distVec := distVec1,
    dist := dist, comps := comps }

/-- The outer `while (dist > mindist_SS) and (iteration < maxiter)` loop of
`SS_solver` (SS.py line 346), with the iteration budget as fuel (the source
counts `iteration` up from 0 toward `maxiter`; passing `maxiter` as fuel with
`iter = 0` gives the identical trip count since each pass increments `iter`
by one). -/
def SS_loop (fsO : ℕ → ℚ → List ℚ → List ℚ) (agg : AggOracle) (S J : ℕ)
    (mindist : ℚ) : ℕ → SSState → SSState
  | 0, st => st
  | fuel + 1, st =>
    if mindist < st.dist then
      SS_loop fsO agg S J mindist fuel (SS_iter fsO agg S J st)
    else st

/-- Initial loop state of `SS_solver` (SS.py lines 330-340): the macro guesses
are renamed into the loop variables, `dist = 10`, `iteration = 0`. -/
def SS_init (w r T_H factor nu : ℚ) (b0 n0 : List (List ℚ)) : SSState :=
  { r := r, w := w, T_H := T_H, factor := factor, nu := nu,
    b := b0, n := n0, iter := 0, distVec := [], dist := 10, comps := [] }

/-- Whole outer fixed point of `SS_solver` (lines 330-415). -/
def SS_solver_loop (fsO : ℕ → ℚ → List ℚ → List ℚ) (agg : AggOracle) (S J : ℕ)
    (mindist : ℚ) (maxiter : ℕ) (w r T_H factor nu : ℚ)
    (b0 n0 : List (List ℚ)) : SSState :=
  SS_loop fsO agg S J mindist maxiter (SS_init w r T_H factor nu b0 n0)

/-- Maximum of a nonempty list in the style of `numpy.ndarray.max` over exact
rationals; the empty case (which raises in `numpy`) is given the junk value 0. -/
def listMax : List ℚ → ℚ
  | [] => 0
  | h :: t => t.foldl Max.max h

/-- Accumulator of the final per-ability pass of `SS_solver`
(SS.py lines 417-432): reported Euler errors, and the solution matrices. -/
structure FinalAcc where
  eul_errors : List ℚ
  b_mat : List (List ℚ)
  n_mat : List (List ℚ)
deriving DecidableEq, Repr

/-- Embedding of the final per-ability pass of `SS_solver`
(SS.py lines 417-432).  The root-finder oracle returns the pair
`(solutions1, infodict['fvec'])`; the convergence flag `ier` and message that
`opt.fsolve(..., full_output=True)` also returns are ignored by the source
(no exception is raised on non-convergence), so they are omitted.
Line 429 stores `np.array(infodict['fvec']).max()` — the signed maximum,
without `np.absolute` — into `eul_errors[j]`. -/
def finalPass (fsO : ℕ → List ℚ → List ℚ × List ℚ) (S J : ℕ)
    (b n : List (List ℚ)) : FinalAcc :=
  (List.range J).foldl
    (fun acc j =>
      -- line 424: guesses = np.append(bssmat[:, j], nssmat[:, j])
      let guesses := b.getD j [] ++ n.getD j []
      -- lines 427-428: fsolve seeded at guesses * .9
      let res := fsO j (guesses.map (fun x => x * (9 / 10)))
      -- line 429: eul_errors[j] = np.array(infodict['fvec']).max()
      { eul_errors := acc.eul_errors.set j (listMax res.2),
        b_mat := acc.b_mat.set j (res.1.take S),
        n_mat := acc.n_mat.set j (res.1.drop S) })
    -- lines 417-419: eul_errors = np.ones(J); b_mat = n_mat = np.zeros((S, J))
    ⟨List.replicate J 1, List.replicate J (List.replicate S 0),
     List.replicate J (List.replicate S 0)⟩

/-- Embedding of `SS_fsolve` (SS.py lines 441-552), the 4-unknown macro
root-finding residual: unpack `w, r, T_H, factor` from the guess vector
(lines 478-481), run the inner per-ability loop (487-501), aggregate
(506-529), form the four residuals (531-534), and add the `1e9` punishments
(545-551).  Out-of-range list reads are given the junk default 0; the source
always receives a length-4 guess vector. -/
def SS_fsolve (fsO : ℕ → ℚ → List ℚ → List ℚ) (agg : AggOracle) (S J : ℕ)
    (guesses : List ℚ) (b0 n0 : List (List ℚ)) : List ℚ :=
  let w := guesses.getD 0 0
  let r := guesses.getD 1 0
  let T_H := guesses.getD 2 0
  let factor := guesses.getD 3 0
  let acc := innerLoop fsO S factor b0 n0 J
  let (new_r, new_w, new_factor, new_T_H) := agg acc.b acc.n factor
  let error1 := new_w - w
  let error2 := new_r - r
  let error3 := new_T_H - T_H
  let error4 := new_factor / 1000000 - factor / 1000000
  -- lines 545-546: if r <= 0: error1 += 1e9
  let error1 := if r ≤ 0 then error1 + 1000000000 else error1
  -- lines 549-550: if w <= 0: error2 += 1e9
  let error2 := if w ≤ 0 then error2 + 1000000000 else error2
  [error1, error2, error3, error4]

/-- Result of one evaluation of `SS_fsolve_reform`: the three residuals
returned on line 659, plus a ghost trace of the value held by the local
variable `factor` at each site where the source reads it
(line 597 print, line 607 `args_` once per ability type, line 642
`tax.get_lump_sum`). -/
structure ReformResult where
  errors : List ℚ
  freads : List ℚ
deriving DecidableEq, Repr

/-- Embedding of `SS_fsolve_reform` (SS.py lines 554-659), the reform-mode
3-unknown residual with the scaling factor held fixed as an argument:
unpack `w, r, T_H` from the guess vector (590-592) — `factor` is *not*
among the unknowns — run the inner loop (601-615), aggregate (620-642,
here `aggPre` yields `(new_r, new_w, new_factor)` from lines 620-633 and
`lumpO` yields `new_T_H` from line 642, which reads `factor`), form three
residuals (644-646) and add the `1e9` punishments (652-657). -/
def SS_fsolve_reform (fsO : ℕ → ℚ → List ℚ → List ℚ)
    (aggPre : List (List ℚ) → List (List ℚ) → ℚ × ℚ × ℚ)
    (lumpO : ℚ → ℚ → List (List ℚ) → List (List ℚ) → ℚ → ℚ)
    (S J : ℕ) (guesses : List ℚ) (b0 n0 : List (List ℚ)) (factor : ℚ) :
    ReformResult :=
  let w := guesses.getD 0 0
  let r := guesses.getD 1 0
  let T_H := guesses.getD 2 0
  -- line 597: print 'Reform SS factor is: ', factor
  let read597 := factor
  let acc := innerLoop fsO S factor b0 n0 J
  let (new_r, new_w, new_factor) := aggPre acc.b acc.n
  -- line 642: new_T_H = tax.get_lump_sum(new_r, new_w, b_s, nssmat, new_BQ, factor, ...)
  let new_T_H := lumpO new_r new_w acc.b acc.n factor
  let error1 := new_w - w
  let error2 := new_r - r
  let error3 := new_T_H - T_H
  let error1 := if r ≤ 0 then error1 + 1000000000 else error1
  let error2 := if w ≤ 0 then error2 + 1000000000 else error2
  -- `new_factor` is diagnostic only here (it feeds the replacement rate on
  -- line 638 inside `aggPre`); the returned residuals are the 3-vector of
  -- line 659 and never include a factor residual.
  let _ := new_factor
  { errors := [error1, error2, error3],
    freads := [read597] ++ acc.freads ++ [factor] }

/-- Result of one evaluation of `function_to_minimize`: the residual vector
`output` after applying any penalties (SS.py lines 728-752), and whether the
candidate solution was persisted as the warm-start seed for the next
evaluation (the `pickle.dump` of `SS_init_solutions.pkl` on lines 742-749). -/
structure MinResult where
  output : List ℚ
  persisted : Bool
deriving DecidableEq, Repr

/-- SS.py line 689: `chi_params_init *= chi_params_scalars`, the elementwise
scaling of the base chi parameters by the candidate multipliers. -/
def chiScaled (chi_params_scalars chi_params_init0 : List ℚ) : List ℚ :=
  List.zipWith (fun a b => a * b) chi_params_init0 chi_params_scalars

/-- SS.py lines 730-734: `eul_error[j] = np.abs(Euler_equation_solver(...)).max()`
for each ability type, then `fsolve_no_converg = eul_error.max()`: the maximum
absolute Euler residual of the candidate equilibrium (`nan` if any residual is
non-numeric, as `numpy` maxima propagate `nan`). -/
def eulMaxOf (J : ℕ) (eulerVecs : ℕ → List V) : V :=
  vmaxList ((List.range J).map (fun j => vmaxList ((eulerVecs j).map V.abs)))

/-- Embedding of the guard-and-persist logic of `function_to_minimize`
(SS.py lines 689, 728-752).  `eulerVecs j` is the residual vector that the
line-732 call to `Euler_equation_solver` returns for ability type `j` at the
candidate equilibrium; `error5` and `error6` are the wealth- and
labor-moment deviation vectors of lines 714 and 726. -/
def function_to_minimize (J : ℕ) (eulerVecs : ℕ → List V)
    (error5 error6 : List ℚ) (chi_params_scalars chi_params_init0 : List ℚ) :
    MinResult :=
  -- line 728: output = np.array(error5 + error6)
  let output := error5 ++ error6
  -- lines 730-734 (see eulMaxOf)
  let fsolve0 := eulMaxOf J eulerVecs
  -- lines 735-736: if np.isnan(fsolve_no_converg): fsolve_no_converg = 1e6
  let fsolve_no_converg := if V.isnan fsolve0 then V.num 1000000 else fsolve0
  -- lines 737-749: penalize and skip persisting, or persist
  let bad := V.lt (V.num (1 / 10000)) fsolve_no_converg
  let output := if bad then output.map (fun x => x + 100000000000000) else output
  let persisted := !bad
  -- lines 750-752: if (chi_params_init <= 0.0).any(): output += 1e14
  let output :=
    if (chiScaled chi_params_scalars chi_params_init0).any (fun c => decide (c ≤ 0)) then
      output.map (fun x => x + 100000000000000)
    else output
  { output := output, persisted := persisted }

/-- Outcome of the entry phase of `run_steady_state` (SS.py lines 791-858),
namely everything executed before the first root-finder / fixed-point call.
`validationError` is the outcome claim C9 asserts for malformed shapes; the
source contains no such check.  `nameError` models a Python `NameError`:
reading a name that is neither a parameter, a local, nor a module global. -/
inductive EntryOutcome where
  | unpackError : EntryOutcome
  | nameError : String → EntryOutcome
  | validationError : String → EntryOutcome
  | solveStarted : EntryOutcome
deriving DecidableEq, Repr

/-- Classifier used to state C9: is the outcome a descriptive validation
failure? -/
def EntryOutcome.isValidation : EntryOutcome → Bool
  | EntryOutcome.validationError _ => true
  | _ => false

/-- Embedding of the entry phase of `run_steady_state`
(SS.py lines 791-858).  Lines 831-835 destructure the 21-element
`ss_parameters` bundle and the 4-tuple `income_tax_parameters` (a Python
unpack fails on an arity mismatch, modelled by `unpackError`; it checks
nothing else about shapes).  The next executed statement, line 837, reads
`chi_b_params` — a name that is not a parameter (the parameter is
`chi_params`), not a local, and not a module global of `SS.py` — so every
call fails with `NameError` at line 837: no shape or invariant validation is
ever performed, and control never reaches the first solve (line 858/871). -/
def run_steady_state_entry
    (income_tax_parameters : Bool × List (List ℚ) × List (List ℚ) × List (List ℚ))
    (ss_parameters : List ℚ) (iterative_params : List ℚ)
    (chi_params : List ℚ × List ℚ) (baseline calibrate_model : Bool) :
    EntryOutcome :=
  if ss_parameters.length = 21 then EntryOutcome.nameError "chi_b_params"
  else EntryOutcome.unpackError

/-!  Concrete fixtures used by witness and counterexample theorems. -/

/-- Trivial concrete household/tax collaborator for `S = 1`: the raw savings
residual is the constant 3, the raw labor residual the constant 7, and
consumption the constant 5. -/
def extW : HHExt 1 where
  getBQ := fun _ _ => V.num 0
  replacementRate := fun _ _ _ => V.num 0
  eulerSavings := fun _ _ _ _ _ _ _ _ _ _ => fun _ => V.num 3
  eulerLabor := fun _ _ _ _ _ _ _ _ _ => fun _ => V.num 7
  totalTaxes := fun _ _ _ _ _ _ _ _ => fun _ => V.num 0
  getCons := fun _ _ _ _ _ _ _ => fun _ => V.num 5

/-- Concrete decision vector for `S = 1`: savings entry 1 (feasible), labor
entry -1 (negative, infeasible). -/
def guessesW : Fin (2 * 1) → V := fun i => if i.val = 0 then V.num 1 else V.num (-1)

/-- Concrete inner root-finder oracle used by witnesses: returns a fixed
length-2 solution vector that records the factor and ability index. -/
def fsW : ℕ → ℚ → List ℚ → List ℚ := fun j factor _ => [factor, (j : ℚ) + 1]

/-- Concrete aggregation oracle used by witnesses: constant new aggregates. -/
def aggW : AggOracle := fun _ _ _ => (2, 1, 1, 1)

/-- Concrete outer-loop state used by witnesses (2 ability types, 1 cohort). -/
def stW : SSState :=
  { r := 1, w := 1, T_H := 1, factor := 3, nu := 1 / 2,
    b := [[4], [5]], n := [[6], [7]], iter := 0, distVec := [], dist := 10,
    comps := [] }

/-- Concrete outer-loop state at iteration index 10 (the 11th pass), with ten
previously recorded distances equal to 0. -/
def stW10 : SSState :=
  { r := 1, w := 1, T_H := 1, factor := 1, nu := 1 / 2,
    b := [[1]], n := [[1]], iter := 10, distVec := List.replicate 10 0,
    dist := 0, comps := [] }

/-- Concrete outer-loop state at iteration index 11 (the 12th pass), with
eleven previously recorded distances equal to 0. -/
def stW11 : SSState :=
  { r := 1, w := 1, T_H := 1, factor := 1, nu := 1 / 2,
    b := [[1]], n := [[1]], iter := 11, distVec := List.replicate 11 0,
    dist := 0, comps := [] }

/-- Concrete reform aggregation oracle for witnesses. -/
def aggPreW : List (List ℚ) → List (List ℚ) → ℚ × ℚ × ℚ := fun _ _ => (2, 1, 5)

/-- Concrete lump-sum oracle for witnesses. -/
def lumpOW : ℚ → ℚ → List (List ℚ) → List (List ℚ) → ℚ → ℚ :=
  fun _ _ _ _ factor => factor

/-- Concrete Euler-residual oracle whose maximum absolute residual is 1
(above the 1e-4 tolerance). -/
def eulerVecsBad : ℕ → List V := fun _ => [V.num 1]

/-- Concrete Euler-residual oracle whose maximum absolute residual is 0
(within the 1e-4 tolerance). -/
def eulerVecsOk : ℕ → List V := fun _ => [V.num 0]

/-- Concrete final-pass root-finder oracle: the returned residual vector
`infodict['fvec']` is `[-5, 1]`, whose signed maximum is 1 but whose maximum
absolute value is 5. -/
def fsFinalW : ℕ → List ℚ → List ℚ × List ℚ := fun _ _ => ([0, 0], [-5, 1])

/-- Concrete malformed parameter bundle for C9: the scalar bundle encodes
`J = 2`, `S = 3`, while the chi guesses have lengths 2 and 1 — the labor
utility-weight vector does not match `S`. -/
def ssParamsBadW : List ℚ := 2 :: 3 :: List.replicate 19 1

/-- Well-formed-looking 21-entry scalar bundle for C9's amended theorem. -/
def ssParamsOkW : List ℚ := List.replicate 21 1

/-- Trivial income-tax parameter 4-tuple for C9. -/
def taxParamsW : Bool × List (List ℚ) × List (List ℚ) × List (List ℚ) :=
  (false, [[1]], [[1]], [[1]])

/-!  Generic helper lemmas (shared across claims). -/

/-- Reading the first block of `ofFn f ++ ofFn g` at an index below `S`. -/
theorem getD_ofFn_append_left {α : Type} {S : ℕ} (f g : Fin S → α) (s : Fin S) (d : α) :
    (List.ofFn f ++ List.ofFn g).getD s.val d = f s := by
  rw [List.getD_append _ _ _ _ (by simpa using s.isLt),
    List.getD_eq_getElem _ _ (by simpa using s.isLt)]
  simp

/-- Reading the second block of `ofFn f ++ ofFn g` at offset `S + s`. -/
theorem getD_ofFn_append_right {α : Type} {S : ℕ} (f g : Fin S → α) (s : Fin S) (d : α) :
    (List.ofFn f ++ List.ofFn g).getD (S + s.val) d = g s := by
  rw [List.getD_append_right _ _ _ _ (by simp)]
  have h : S + s.val - (List.ofFn f).length = s.val := by simp
  rw [h, List.getD_eq_getElem _ _ (by simpa using s.isLt)]
  simp

/-- C1: in `Euler_equation_solver`, an entry with negative labor, labor above
the time endowment, non-numeric labor, non-positive or non-numeric savings, or
negative implied consumption has its corresponding residual entry (savings
residual at position `s`, labor-leisure residual at position `S + s`)
overwritten with the sentinel `1e14`, all other entries are returned exactly
as the household functions produced them, and in particular a negative labor
entry at age `s` forces the labor-leisure residual at position `s` of the
labor block to the sentinel. -/
theorem c1_euler_infeasible_entries_penalized (S : ℕ) (ext : HHExt S)
    (guesses : Fin (2 * S) → V) (r w T_H factor ltilde : ℚ) (s : Fin S) :
    ((Euler_equation_solver S ext guesses r w T_H factor ltilde).getD s.val V.nan =
      if (V.lt (consOf S ext guesses r w T_H factor s) (V.num 0) ||
          V.isnan (bGuessOf S guesses s) || V.le (bGuessOf S guesses s) (V.num 0)) then
        penalty
      else rawSavingsOf S ext guesses r w T_H factor s) ∧
    ((Euler_equation_solver S ext guesses r w T_H factor ltilde).getD (S + s.val) V.nan =
      if (V.isnan (nGuessOf S guesses s) || V.lt (V.num ltilde) (nGuessOf S guesses s) ||
          V.lt (nGuessOf S guesses s) (V.num 0)) then
        penalty
      else rawLaborOf S ext guesses r w T_H factor s) ∧
    (V.lt (nGuessOf S guesses s) (V.num 0) = true →
      (Euler_equation_solver S ext guesses r w T_H factor ltilde).getD (S + s.val) V.nan =
        penalty) := by
  have h1 : (Euler_equation_solver S ext guesses r w T_H factor ltilde).getD s.val V.nan =
      (if V.lt (consOf S ext guesses r w T_H factor s) (V.num 0) then penalty
       else if V.isnan (bGuessOf S guesses s) then penalty
       else if V.le (bGuessOf S guesses s) (V.num 0) then penalty
       else rawSavingsOf S ext guesses r w T_H factor s) := by
    unfold Euler_equation_solver
    exact getD_ofFn_append_left _ _ s V.nan
  have h2 : (Euler_equation_solver S ext guesses r w T_H factor ltilde).getD (S + s.val) V.nan =
      (if V.isnan (nGuessOf S guesses s) then penalty
       else if V.lt (V.num ltilde) (nGuessOf S guesses s) then penalty
       else if V.lt (nGuessOf S guesses s) (V.num 0) then penalty
       else rawLaborOf S ext guesses r w T_H factor s) := by
    unfold Euler_equation_solver
    exact getD_ofFn_append_right _ _ s V.nan
  refine ⟨?_, ?_, ?_⟩
  · rw [h1]
    cases hc : V.lt (consOf S ext guesses r w T_H factor s) (V.num 0) <;>
      cases hb5 : V.isnan (bGuessOf S guesses s) <;>
      cases hb3 : V.le (bGuessOf S guesses s) (V.num 0) <;> simp [hc, hb5, hb3]
  · rw [h2]
    cases hn4 : V.isnan (nGuessOf S guesses s) <;>
      cases hn2 : V.lt (V.num ltilde) (nGuessOf S guesses s) <;>
      cases hn1 : V.lt (nGuessOf S guesses s) (V.num 0) <;> simp [hn4, hn2, hn1]
  · intro hneg
    rw [h2, hneg]
    cases hn4 : V.isnan (nGuessOf S guesses s) <;>
      cases hn2 : V.lt (V.num ltilde) (nGuessOf S guesses s) <;> simp [hn4, hn2]

/-- Witness for C1, instantiated at `S = 1` with a decision vector whose labor
entry is -1 (negative): the labor-leisure residual entry of the returned
vector equals the sentinel penalty. -/
theorem c1_euler_infeasible_entries_penalized_witness :
    V.lt (nGuessOf 1 guessesW ⟨0, by omega⟩) (V.num 0) = true ∧
    (Euler_equation_solver 1 extW guessesW 0 0 0 0 1).getD (1 + 0) V.nan = penalty := by
  refine ⟨by decide, ?_⟩
  exact (c1_euler_infeasible_entries_penalized 1 extW guessesW 0 0 0 0 1
    ⟨0, by omega⟩).2.2 (by decide)

/-- C2: `Euler_equation_solver` returns a residual vector of length exactly
`2S` (the `S` savings residuals followed by the `S` labor-leisure residuals),
and it is a deterministic pure function of its inputs: two calls with equal
inputs return equal outputs (the embedding is a function and the source
performs no mutation of its arguments, no global writes and no I/O). -/
theorem c2_euler_length_and_deterministic (S : ℕ) (ext : HHExt S)
    (guesses : Fin (2 * S) → V) (r w T_H factor ltilde : ℚ) :
    (Euler_equation_solver S ext guesses r w T_H factor ltilde).length = 2 * S ∧
    (∀ guesses2 : Fin (2 * S) → V, guesses2 = guesses →
      Euler_equation_solver S ext guesses2 r w T_H factor ltilde =
        Euler_equation_solver S ext guesses r w T_H factor ltilde) := by
  constructor
  · unfold Euler_equation_solver
    simp [List.length_append, List.length_ofFn]
    omega
  · intro guesses2 hg
    rw [hg]

/-- Witness for C2 at a concrete input: the returned vector has length
`2 * 1` and a repeated call with the same (equal) input yields the same
output. -/
theorem c2_euler_length_and_deterministic_witness :
    (Euler_equation_solver 1 extW guessesW 0 0 0 0 1).length = 2 * 1 ∧
    Euler_equation_solver 1 extW guessesW 0 0 0 0 1 =
      Euler_equation_solver 1 extW guessesW 0 0 0 0 1 := by
  exact ⟨(c2_euler_length_and_deterministic 1 extW guessesW 0 0 0 0 1).1,
    (c2_euler_length_and_deterministic 1 extW guessesW 0 0 0 0 1).2 guessesW rfl⟩

/-- Unfolding of the inner loop by one trailing pass. -/
theorem innerLoop_succ (fsO : ℕ → ℚ → List ℚ → List ℚ) (S : ℕ) (factor : ℚ)
    (b0 n0 : List (List ℚ)) (J : ℕ) :
    innerLoop fsO S factor b0 n0 (J + 1) =
      innerStep fsO S factor (innerLoop fsO S factor b0 n0 J) J := by
  unfold innerLoop
  rw [List.range_succ, List.foldl_append]
  rfl

/-- Reading a freshly written entry of `List.set`. -/
theorem getD_set_self {α : Type} (l : List α) (i : ℕ) (a d : α) (h : i < l.length) :
    (l.set i a).getD i d = a := by
  rw [List.getD_eq_getElem _ _ (by simpa using h)]
  simp [List.getElem_set]

/-- Invariant of the inner per-ability loop of `SS_solver`
(SS.py lines 349-364): the ghost seed trace equals the claimed seed sequence
`seedSpec`, the `factor` read trace is constant, matrix column counts are
preserved, and on exit the last written columns hold the last root-finder
solution split as `solutions[:S]` / `solutions[S:]`. -/
theorem innerLoop_spec (fsO : ℕ → ℚ → List ℚ → List ℚ) (S : ℕ) (factor : ℚ)
    (b0 n0 : List (List ℚ)) (J : ℕ) (hb : J ≤ b0.length) (hn : J ≤ n0.length) :
    (innerLoop fsO S factor b0 n0 J).seeds =
      (List.range J).map (seedSpec fsO S factor b0 n0) ∧
    (innerLoop fsO S factor b0 n0 J).freads = List.replicate J factor ∧
    (innerLoop fsO S factor b0 n0 J).b.length = b0.length ∧
    (innerLoop fsO S factor b0 n0 J).n.length = n0.length ∧
    (J = 0 → (innerLoop fsO S factor b0 n0 J).b = b0 ∧
      (innerLoop fsO S factor b0 n0 J).n = n0) ∧
    (0 < J →
      (innerLoop fsO S factor b0 n0 J).b.getD (J - 1) [] =
        (fsO (J - 1) factor (seedSpec fsO S factor b0 n0 (J - 1))).take S ∧
      (innerLoop fsO S factor b0 n0 J).n.getD (J - 1) [] =
        (fsO (J - 1) factor (seedSpec fsO S factor b0 n0 (J - 1))).drop S) := by
  induction J with
  | zero =>
    refine ⟨rfl, rfl, rfl, rfl, fun _ => ⟨rfl, rfl⟩, fun h => absurd h (by omega)⟩
  | succ J ih =>
    obtain ⟨ihseeds, ihfreads, ihlb, ihln, ihzero, ihlast⟩ :=
      ih (by omega) (by omega)
    set acc := innerLoop fsO S factor b0 n0 J with hacc
    have hstep : innerLoop fsO S factor b0 n0 (J + 1) = innerStep fsO S factor acc J :=
      innerLoop_succ fsO S factor b0 n0 J
    have hseed : (seedFor acc.b acc.n J).map (fun x => x * (9 / 10)) =
        seedSpec fsO S factor b0 n0 J := by
      cases J with
      | zero =>
        obtain ⟨hb0, hn0⟩ := ihzero rfl
        simp [seedFor, hb0, hn0, seedSpec]
      | succ K =>
        obtain ⟨hbK, hnK⟩ := ihlast (by omega)
        simp only [seedFor, if_neg (Nat.succ_ne_zero K), Nat.add_sub_cancel] at *
        rw [hbK, hnK]
        simp [seedSpec, List.map_append]
    constructor
    · rw [hstep]
      simp only [innerStep, List.range_succ, List.map_append, List.map_cons, List.map_nil]
      rw [ihseeds, hseed]
    constructor
    · rw [hstep]
      simp only [innerStep]
      rw [ihfreads, List.replicate_succ']
    constructor
    · rw [hstep]; simp only [innerStep, List.length_set]; exact ihlb
    constructor
    · rw [hstep]; simp only [innerStep, List.length_set]; exact ihln
    constructor
    · intro h; omega
    · intro _
      rw [hstep]
      simp only [innerStep, Nat.add_sub_cancel]
      constructor
      · rw [hseed, getD_set_self _ _ _ _ (by omega)]
      · rw [hseed, getD_set_self _ _ _ _ (by omega)]

/-- C6: in each outer iteration of `SS_solver`, the inner root finder is
seeded, for ability type 0, at exactly 0.9 times the concatenation of the
current global guess columns (savings then labor of type 0), and, for every
ability type `j + 1`, at exactly 0.9 times the concatenation of ability type
`j`'s just-converged savings (`solutions[:S]`) and labor (`solutions[S:]`)
solution.  The first conjunct identifies the ghost seed trace of the inner
loop exactly as `SS_iter` runs it with the claimed sequence `seedSpec`; the
remaining conjuncts unfold `seedSpec` into the two claimed seeding rules, and
the last ties the inner loop to `SS_iter`. -/
theorem c6_inner_solver_seeding (fsO : ℕ → ℚ → List ℚ → List ℚ) (agg : AggOracle)
    (S J : ℕ) (st : SSState) (hb : J ≤ st.b.length) (hn : J ≤ st.n.length) :
    (innerLoop fsO S st.factor st.b st.n J).seeds =
      (List.range J).map (seedSpec fsO S st.factor st.b st.n) ∧
    seedSpec fsO S st.factor st.b st.n 0 =
      (st.b.getD 0 [] ++ st.n.getD 0 []).map (fun x => x * (9 / 10)) ∧
    (∀ j : ℕ, seedSpec fsO S st.factor st.b st.n (j + 1) =
      ((fsO j st.factor (seedSpec fsO S st.factor st.b st.n j)).take S ++
        (fsO j st.factor (seedSpec fsO S st.factor st.b st.n j)).drop S).map
          (fun x => x * (9 / 10))) ∧
    (SS_iter fsO agg S J st).b = (innerLoop fsO S st.factor st.b st.n J).b := by
  refine ⟨(innerLoop_spec fsO S st.factor st.b st.n J hb hn).1, rfl, fun j => rfl, ?_⟩
  rcases hagg : agg (innerLoop fsO S st.factor st.b st.n J).b
      (innerLoop fsO S st.factor st.b st.n J).n st.factor with ⟨a1, a2, a3, a4⟩
  simp [SS_iter, hagg]

/-- Witness for C6 at a concrete instance (`J = 2`, `S = 1`): the recorded
seed trace equals the claimed seed sequence. -/
theorem c6_inner_solver_seeding_witness :
    (innerLoop fsW 1 stW.factor stW.b stW.n 2).seeds =
      (List.range 2).map (seedSpec fsW 1 stW.factor stW.b stW.n) := by
  exact (c6_inner_solver_seeding fsW aggW 1 2 stW (by decide) (by decide)).1

/-- Maximum of four rationals, written the way SS.py lines 396/403 take
`np.array([c0, c1, c2, c3]).max()`: it is an element of the four-element list
and an upper bound of it. -/
theorem max4_spec (a b c d : ℚ) :
    Max.max (Max.max (Max.max a b) c) d ∈ [a, b, c, d] ∧
    ∀ x ∈ [a, b, c, d], x ≤ Max.max (Max.max (Max.max a b) c) d := by
  constructor
  · rcases max_choice (Max.max (Max.max a b) c) d with h | h
    · rw [h]
      rcases max_choice (Max.max a b) c with h2 | h2
      · rw [h2]
        rcases max_choice a b with h3 | h3 <;> rw [h3] <;> simp
      · rw [h2]; simp
    · rw [h]; simp
  · intro x hx
    have ha : a ≤ Max.max (Max.max (Max.max a b) c) d :=
      le_trans (le_trans (le_max_left a b) (le_max_left _ c)) (le_max_left _ d)
    have hb : b ≤ Max.max (Max.max (Max.max a b) c) d :=
      le_trans (le_trans (le_max_right a b) (le_max_left _ c)) (le_max_left _ d)
    have hc : c ≤ Max.max (Max.max (Max.max a b) c) d :=
      le_trans (le_max_right _ c) (le_max_left _ d)
    have hd : d ≤ Max.max (Max.max (Max.max a b) c) d := le_max_right _ d
    simp only [List.mem_cons, List.not_mem_nil, or_false] at hx
    rcases hx with rfl | rfl | rfl | rfl <;> assumption

/-- Each pass of the outer loop records a distance that bounds the four
component differences of that pass from above, and belongs to them. -/
theorem SS_iter_dist_max (fsO : ℕ → ℚ → List ℚ → List ℚ) (agg : AggOracle)
    (S J : ℕ) (st : SSState) :
    (SS_iter fsO agg S J st).dist ∈ (SS_iter fsO agg S J st).comps ∧
    ∀ c ∈ (SS_iter fsO agg S J st).comps, c ≤ (SS_iter fsO agg S J st).dist := by
  rcases hagg : agg (innerLoop fsO S st.factor st.b st.n J).b
      (innerLoop fsO S st.factor st.b st.n J).n st.factor with ⟨nr, nw, nf, nT⟩
  simp only [SS_iter, hagg, SS_comps]
  exact max4_spec _ _ _ _

/-- The outer loop preserves the property that every recorded component
difference of the most recent pass is bounded by the recorded distance. -/
theorem SS_loop_dist_max (fsO : ℕ → ℚ → List ℚ → List ℚ) (agg : AggOracle)
    (S J : ℕ) (mindist : ℚ) :
    ∀ (fuel : ℕ) (st : SSState), (∀ c ∈ st.comps, c ≤ st.dist) →
      ∀ c ∈ (SS_loop fsO agg S J mindist fuel st).comps,
        c ≤ (SS_loop fsO agg S J mindist fuel st).dist := by
  intro fuel
  induction fuel with
  | zero => intro st h; exact h
  | succ fuel ih =>
    intro st h
    unfold SS_loop
    by_cases hguard : mindist < st.dist
    · rw [if_pos hguard]
      exact ih (SS_iter fsO agg S J st) (SS_iter_dist_max fsO agg S J st).2
    · rw [if_neg hguard]
      exact h

/-- C3: in every pass of `SS_solver`'s outer loop the convergence distance is
the maximum of the four component differences, which are the relative percent
differences between the newly implied and the freshly damped current values
of interest rate, wage, transfer and scaling factor, except that the transfer
component degrades to the absolute difference when the damped transfer is
exactly zero; consequently, when the loop exits with the distance within the
tolerance `mindist_SS` (the CONVERGED exit of the `while` guard on line 346),
each of the four component differences of the last pass is within
`mindist_SS` as well. -/
theorem c3_converged_components_within_tolerance
    (fsO : ℕ → ℚ → List ℚ → List ℚ) (agg : AggOracle) (S J : ℕ)
    (mindist : ℚ) (maxiter : ℕ) (w r T_H factor nu : ℚ)
    (b0 n0 : List (List ℚ)) :
    (∀ (st : SSState) (nr nw nf nT : ℚ),
      agg (innerLoop fsO S st.factor st.b st.n J).b
          (innerLoop fsO S st.factor st.b st.n J).n st.factor = (nr, nw, nf, nT) →
      (SS_iter fsO agg S J st).comps =
        [pct_diff_func nr (convex_combo nr st.r st.nu),
         pct_diff_func nw (convex_combo nw st.w st.nu),
         if convex_combo nT st.T_H st.nu = 0 then
           |nT - convex_combo nT st.T_H st.nu|
         else pct_diff_func nT (convex_combo nT st.T_H st.nu),
         pct_diff_func nf (convex_combo nf st.factor st.nu)] ∧
      (SS_iter fsO agg S J st).dist ∈ (SS_iter fsO agg S J st).comps ∧
      (∀ c ∈ (SS_iter fsO agg S J st).comps, c ≤ (SS_iter fsO agg S J st).dist)) ∧
    ((SS_solver_loop fsO agg S J mindist maxiter w r T_H factor nu b0 n0).dist ≤ mindist →
      ∀ c ∈ (SS_solver_loop fsO agg S J mindist maxiter w r T_H factor nu b0 n0).comps,
        c ≤ mindist) := by
  constructor
  · intro st nr nw nf nT hagg
    refine ⟨?_, SS_iter_dist_max fsO agg S J st⟩
    simp only [SS_iter, hagg, SS_comps]
    by_cases hT : convex_combo nT st.T_H st.nu = 0
    · rw [if_pos hT, if_neg (by simp [hT])]
    · rw [if_neg hT, if_pos hT]
  · intro hconv c hc
    have hbound := SS_loop_dist_max fsO agg S J mindist maxiter
      (SS_init w r T_H factor nu b0 n0) (by intro c hc; simp [SS_init] at hc)
    exact le_trans (hbound c hc) hconv

/-- Witness for C3 at a concrete run (`S = 1`, `J = 2`, tolerance 1/2) that
exits converged after one pass: the recorded component differences are all
within the tolerance, via the theorem; the first conjunct instantiates the
per-pass characterization at the initial state. -/
theorem c3_converged_components_within_tolerance_witness :
    ((SS_iter fsW aggW 1 2 stW).comps =
      [pct_diff_func 2 (convex_combo 2 stW.r stW.nu),
       pct_diff_func 1 (convex_combo 1 stW.w stW.nu),
       if convex_combo 1 stW.T_H stW.nu = 0 then
         |1 - convex_combo 1 stW.T_H stW.nu|
       else pct_diff_func 1 (convex_combo 1 stW.T_H stW.nu),
       pct_diff_func 1 (convex_combo 1 stW.factor stW.nu)] ∧
     (SS_iter fsW aggW 1 2 stW).dist ∈ (SS_iter fsW aggW 1 2 stW).comps ∧
     (∀ c ∈ (SS_iter fsW aggW 1 2 stW).comps, c ≤ (SS_iter fsW aggW 1 2 stW).dist)) ∧
    (∀ c ∈ (SS_solver_loop fsW aggW 1 2 (1/2) 1 1 1 1 3 (1/2) [[4], [5]] [[6], [7]]).comps,
      c ≤ (1 : ℚ) / 2) := by
  constructor
  · exact (c3_converged_components_within_tolerance fsW aggW 1 2 (1/2) 1 1 1 1 3 (1/2)
      [[4], [5]] [[6], [7]]).1 stW 2 1 1 1 rfl
  · refine (c3_converged_components_within_tolerance fsW aggW 1 2 (1/2) 1 1 1 1 3 (1/2)
      [[4], [5]] [[6], [7]]).2 ?_
    norm_num [SS_solver_loop, SS_loop, SS_iter, SS_init, innerLoop, innerStep, seedFor,
      fsW, aggW, SS_comps, convex_combo, pct_diff_func, max_def, List.range_succ,
      abs_of_nonneg]

/-- Counterexample to C4 as stated: the code's warm-up condition is
`iteration > 10` on the 0-based pass index (SS.py line 410), so the 11th pass
(index 10) — which lies beyond "the first 10 iterations" of the claim — is
still exempt.  At the concrete state `stW10` (pass index 10) the convergence
distance strictly increases relative to the previous recorded distance, yet
`nu` stays at 1/2 instead of being halved to 1/4. -/
theorem c4_damping_warmup_counterexample :
    stW10.iter = 10 ∧
    0 < (SS_iter fsW aggW 1 1 stW10).dist - stW10.distVec.getD (stW10.iter - 1) 0 ∧
    (SS_iter fsW aggW 1 1 stW10).nu = 1 / 2 ∧
    stW10.nu = 1 / 2 ∧
    ¬(SS_iter fsW aggW 1 1 stW10).nu = stW10.nu / 2 := by
  refine ⟨rfl, ?_, ?_, rfl, ?_⟩ <;>
    norm_num [SS_iter, innerLoop, innerStep, seedFor, fsW, aggW, SS_comps,
      convex_combo, pct_diff_func, max_def, List.range_succ, abs_of_nonneg, stW10]

/-- C4 (amended): in `SS_solver`, the first 11 passes of the outer loop
(0-based iteration indices 0 through 10; the source condition is
`iteration > 10`) are exempt from adaptive damping; on any later pass on
which the convergence distance strictly exceeds the previously recorded
distance, the damping parameter `nu` after that pass equals exactly half its
prior value, `nu` is changed in no other way, and a positive `nu` therefore
stays positive throughout the loop (it never reaches zero). -/
theorem c4_damping_halving_amended (fsO : ℕ → ℚ → List ℚ → List ℚ)
    (agg : AggOracle) (S J : ℕ) :
    (∀ st : SSState, 10 < st.iter →
      0 < (SS_iter fsO agg S J st).dist - st.distVec.getD (st.iter - 1) 0 →
      (SS_iter fsO agg S J st).nu = st.nu / 2) ∧
    (∀ st : SSState,
      ¬(10 < st.iter ∧
        0 < (SS_iter fsO agg S J st).dist - st.distVec.getD (st.iter - 1) 0) →
      (SS_iter fsO agg S J st).nu = st.nu) ∧
    (∀ st : SSState, 0 < st.nu → 0 < (SS_iter fsO agg S J st).nu) ∧
    (∀ (mindist : ℚ) (fuel : ℕ) (st : SSState), 0 < st.nu →
      0 < (SS_loop fsO agg S J mindist fuel st).nu) := by
  have hnu : ∀ st : SSState, (SS_iter fsO agg S J st).nu = st.nu / 2 ∨
      (SS_iter fsO agg S J st).nu = st.nu := by
    intro st
    rcases hagg : agg (innerLoop fsO S st.factor st.b st.n J).b
        (innerLoop fsO S st.factor st.b st.n J).n st.factor with ⟨nr, nw, nf, nT⟩
    simp only [SS_iter, hagg]
    by_cases hcond : 10 < st.iter ∧
        0 < Max.max (Max.max (Max.max ((SS_comps nr nw nf nT (convex_combo nr st.r st.nu)
          (convex_combo nw st.w st.nu) (convex_combo nf st.factor st.nu)
          (convex_combo nT st.T_H st.nu)).getD 0 0)
          ((SS_comps nr nw nf nT (convex_combo nr st.r st.nu) (convex_combo nw st.w st.nu)
            (convex_combo nf st.factor st.nu) (convex_combo nT st.T_H st.nu)).getD 1 0))
          ((SS_comps nr nw nf nT (convex_combo nr st.r st.nu) (convex_combo nw st.w st.nu)
            (convex_combo nf st.factor st.nu) (convex_combo nT st.T_H st.nu)).getD 2 0))
          ((SS_comps nr nw nf nT (convex_combo nr st.r st.nu) (convex_combo nw st.w st.nu)
            (convex_combo nf st.factor st.nu) (convex_combo nT st.T_H st.nu)).getD 3 0) -
          st.distVec.getD (st.iter - 1) 0
    · rw [if_pos hcond]; exact Or.inl rfl
    · rw [if_neg hcond]; exact Or.inr rfl
  refine ⟨?_, ?_, ?_, ?_⟩
  · intro st h10 hinc
    rcases hagg : agg (innerLoop fsO S st.factor st.b st.n J).b
        (innerLoop fsO S st.factor st.b st.n J).n st.factor with ⟨nr, nw, nf, nT⟩
    simp only [SS_iter, hagg] at hinc ⊢
    rw [if_pos ⟨h10, hinc⟩]
  · intro st hnot
    rcases hagg : agg (innerLoop fsO S st.factor st.b st.n J).b
        (innerLoop fsO S st.factor st.b st.n J).n st.factor with ⟨nr, nw, nf, nT⟩
    simp only [SS_iter, hagg] at hnot ⊢
    rw [if_neg hnot]
  · intro st hpos
    rcases hnu st with h | h <;> rw [h]
    · exact half_pos hpos
    · exact hpos
  · intro mindist fuel
    induction fuel with
    | zero => intro st h; exact h
    | succ fuel ih =>
      intro st h
      unfold SS_loop
      by_cases hguard : mindist < st.dist
      · rw [if_pos hguard]
        refine ih (SS_iter fsO agg S J st) ?_
        rcases hnu st with hh | hh <;> rw [hh]
        · exact half_pos h
        · exact h
      · rw [if_neg hguard]; exact h

/-- Witness for the amended C4 at the concrete state `stW11` (pass index 11,
past the warm-up window) whose distance strictly increases: `nu` is halved
from 1/2 to 1/4. -/
theorem c4_damping_halving_amended_witness :
    10 < stW11.iter ∧
    0 < (SS_iter fsW aggW 1 1 stW11).dist - stW11.distVec.getD (stW11.iter - 1) 0 ∧
    (SS_iter fsW aggW 1 1 stW11).nu = stW11.nu / 2 := by
  have hinc : 0 < (SS_iter fsW aggW 1 1 stW11).dist -
      stW11.distVec.getD (stW11.iter - 1) 0 := by
    norm_num [SS_iter, innerLoop, innerStep, seedFor, fsW, aggW, SS_comps,
      convex_combo, pct_diff_func, max_def, List.range_succ, abs_of_nonneg, stW11]
  exact ⟨by norm_num [stW11], hinc,
    (c4_damping_halving_amended fsW aggW 1 1).1 stW11 (by norm_num [stW11]) hinc⟩

/-- The ghost `factor` trace of the inner loop is the constant list: the
inner `opt.fsolve` call of every ability type receives the same `factor`
value that the enclosing function holds. -/
theorem innerLoop_freads_const (fsO : ℕ → ℚ → List ℚ → List ℚ) (S : ℕ)
    (factor : ℚ) (b0 n0 : List (List ℚ)) :
    ∀ J : ℕ, (innerLoop fsO S factor b0 n0 J).freads = List.replicate J factor := by
  intro J
  induction J with
  | zero => rfl
  | succ J ih =>
    rw [innerLoop_succ]
    simp only [innerStep]
    rw [ih, List.replicate_succ']

/-- C5: `SS_fsolve_reform` holds the scaling factor fixed.  The returned
residual vector has length exactly 3 (only wage, interest rate and transfer
are unknowns); the value of the local variable `factor` observed at every
site where the source reads it (the line-597 print, the per-ability
`args_` of the inner root finder on line 607, and the line-642
`tax.get_lump_sum` call) is exactly the factor passed in, on every
evaluation; and the result depends on the guess vector only through its
first three entries, so the factor slot of a 4-entry guess would be
ignored. -/
theorem c5_reform_factor_held_fixed (fsO : ℕ → ℚ → List ℚ → List ℚ)
    (aggPre : List (List ℚ) → List (List ℚ) → ℚ × ℚ × ℚ)
    (lumpO : ℚ → ℚ → List (List ℚ) → List (List ℚ) → ℚ → ℚ)
    (S J : ℕ) (guesses : List ℚ) (b0 n0 : List (List ℚ)) (factor : ℚ) :
    (SS_fsolve_reform fsO aggPre lumpO S J guesses b0 n0 factor).errors.length = 3 ∧
    (∀ x ∈ (SS_fsolve_reform fsO aggPre lumpO S J guesses b0 n0 factor).freads,
      x = factor) ∧
    (∀ guesses2 : List ℚ,
      guesses2.getD 0 0 = guesses.getD 0 0 →
      guesses2.getD 1 0 = guesses.getD 1 0 →
      guesses2.getD 2 0 = guesses.getD 2 0 →
      SS_fsolve_reform fsO aggPre lumpO S J guesses2 b0 n0 factor =
        SS_fsolve_reform fsO aggPre lumpO S J guesses b0 n0 factor) := by
  refine ⟨?_, ?_, ?_⟩
  · rcases hagg : aggPre (innerLoop fsO S factor b0 n0 J).b
        (innerLoop fsO S factor b0 n0 J).n with ⟨nr, nw, nf⟩
    simp [SS_fsolve_reform, hagg]
  · intro x hx
    rcases hagg : aggPre (innerLoop fsO S factor b0 n0 J).b
        (innerLoop fsO S factor b0 n0 J).n with ⟨nr, nw, nf⟩
    simp only [SS_fsolve_reform, hagg] at hx
    rw [innerLoop_freads_const fsO S factor b0 n0 J] at hx
    simp only [List.singleton_append, List.mem_cons, List.mem_append,
      List.mem_replicate, List.mem_singleton] at hx
    tauto
  · intro guesses2 h0 h1 h2
    simp only [SS_fsolve_reform, h0, h1, h2]

/-- Witness for C5 at a concrete reform evaluation (`factor = 7`): three
residuals are returned, and appending a spurious fourth guess entry does not
change the result. -/
theorem c5_reform_factor_held_fixed_witness :
    (SS_fsolve_reform fsW aggPreW lumpOW 1 1 [1, 2, 3] [[4]] [[6]] 7).errors.length = 3 ∧
    SS_fsolve_reform fsW aggPreW lumpOW 1 1 [1, 2, 3, 99] [[4]] [[6]] 7 =
      SS_fsolve_reform fsW aggPreW lumpOW 1 1 [1, 2, 3] [[4]] [[6]] 7 := by
  exact ⟨(c5_reform_factor_held_fixed fsW aggPreW lumpOW 1 1 [1, 2, 3] [[4]] [[6]] 7).1,
    (c5_reform_factor_held_fixed fsW aggPreW lumpOW 1 1 [1, 2, 3] [[4]] [[6]] 7).2.2
      [1, 2, 3, 99] rfl rfl rfl⟩

/-- C7: in `function_to_minimize`, if the maximum absolute Euler residual of
the candidate equilibrium exceeds 1e-4 or is non-numeric, every entry of the
objective's residual vector is inflated by the penalty 1e14 and the candidate
solution is not persisted as the warm-start seed; if any scaled chi parameter
is non-positive, the residual vector is likewise inflated by 1e14; and on
every non-penalized evaluation the solution is persisted and the residual
vector is returned unchanged. -/
theorem c7_calibration_guards_and_persistence (J : ℕ) (eulerVecs : ℕ → List V)
    (error5 error6 : List ℚ) (chi_params_scalars chi_params_init0 : List ℚ) :
    ((V.lt (V.num (1 / 10000)) (eulMaxOf J eulerVecs) ||
        V.isnan (eulMaxOf J eulerVecs)) = true →
      (function_to_minimize J eulerVecs error5 error6 chi_params_scalars
        chi_params_init0).persisted = false) ∧
    ((V.lt (V.num (1 / 10000)) (eulMaxOf J eulerVecs) ||
        V.isnan (eulMaxOf J eulerVecs)) = false →
      (function_to_minimize J eulerVecs error5 error6 chi_params_scalars
        chi_params_init0).persisted = true) ∧
    ((V.lt (V.num (1 / 10000)) (eulMaxOf J eulerVecs) ||
        V.isnan (eulMaxOf J eulerVecs)) = true →
      (chiScaled chi_params_scalars chi_params_init0).any (fun c => decide (c ≤ 0)) = false →
      (function_to_minimize J eulerVecs error5 error6 chi_params_scalars
        chi_params_init0).output =
        (error5 ++ error6).map (fun x => x + 100000000000000)) ∧
    ((V.lt (V.num (1 / 10000)) (eulMaxOf J eulerVecs) ||
        V.isnan (eulMaxOf J eulerVecs)) = false →
      (chiScaled chi_params_scalars chi_params_init0).any (fun c => decide (c ≤ 0)) = true →
      (function_to_minimize J eulerVecs error5 error6 chi_params_scalars
        chi_params_init0).output =
        (error5 ++ error6).map (fun x => x + 100000000000000)) ∧
    ((V.lt (V.num (1 / 10000)) (eulMaxOf J eulerVecs) ||
        V.isnan (eulMaxOf J eulerVecs)) = false →
      (chiScaled chi_params_scalars chi_params_init0).any (fun c => decide (c ≤ 0)) = false →
      (function_to_minimize J eulerVecs error5 error6 chi_params_scalars
        chi_params_init0).output = error5 ++ error6) := by
  have hbad : V.lt (V.num (1 / 10000))
      (if V.isnan (eulMaxOf J eulerVecs) then V.num 1000000 else eulMaxOf J eulerVecs) =
      (V.lt (V.num (1 / 10000)) (eulMaxOf J eulerVecs) ||
        V.isnan (eulMaxOf J eulerVecs)) := by
    cases hm : eulMaxOf J eulerVecs with
    | nan =>
      simp only [V.isnan, if_true, V.lt, Bool.or_true, decide_eq_true_eq]
      norm_num
    | num q => simp [V.isnan]
  refine ⟨?_, ?_, ?_, ?_, ?_⟩
  · intro h1
    simp only [function_to_minimize, hbad]
    rw [h1]
    rfl
  · intro h1
    simp only [function_to_minimize, hbad]
    rw [h1]
    rfl
  · intro h1 h2
    simp only [function_to_minimize, hbad]
    rw [h1, h2]
    simp
  · intro h1 h2
    simp only [function_to_minimize, hbad]
    rw [h1, h2]
    simp
  · intro h1 h2
    simp only [function_to_minimize, hbad]
    rw [h1, h2]
    simp

/-- Witness for C7 at three concrete evaluations: a candidate with Euler
residual 1 (above tolerance, chi fine) is penalized and not persisted; a
candidate with Euler residual 0 and positive chi is persisted with the
residual vector unchanged; and a candidate with Euler residual 0 but a
non-positive scaled chi parameter is penalized. -/
theorem c7_calibration_guards_and_persistence_witness :
    (function_to_minimize 1 eulerVecsBad [0] [] [1] [1]).persisted = false ∧
    (function_to_minimize 1 eulerVecsBad [0] [] [1] [1]).output =
      ([(0 : ℚ)] ++ []).map (fun x => x + 100000000000000) ∧
    (function_to_minimize 1 eulerVecsOk [0] [] [1] [1]).persisted = true ∧
    (function_to_minimize 1 eulerVecsOk [0] [] [1] [1]).output = [(0 : ℚ)] ++ [] ∧
    (function_to_minimize 1 eulerVecsOk [0] [] [-1] [1]).output =
      ([(0 : ℚ)] ++ []).map (fun x => x + 100000000000000) := by
  have hB : (V.lt (V.num (1 / 10000)) (eulMaxOf 1 eulerVecsBad) ||
      V.isnan (eulMaxOf 1 eulerVecsBad)) = true := by
    norm_num [eulMaxOf, eulerVecsBad, vmaxList, V.abs, V.lt, V.isnan, List.range_succ]
  have hO : (V.lt (V.num (1 / 10000)) (eulMaxOf 1 eulerVecsOk) ||
      V.isnan (eulMaxOf 1 eulerVecsOk)) = false := by
    norm_num [eulMaxOf, eulerVecsOk, vmaxList, V.abs, V.lt, V.isnan, List.range_succ]
  refine ⟨(c7_calibration_guards_and_persistence 1 eulerVecsBad [0] [] [1] [1]).1 hB,
    (c7_calibration_guards_and_persistence 1 eulerVecsBad [0] [] [1] [1]).2.2.1 hB
      (by norm_num [chiScaled]),
    (c7_calibration_guards_and_persistence 1 eulerVecsOk [0] [] [1] [1]).2.1 hO,
    (c7_calibration_guards_and_persistence 1 eulerVecsOk [0] [] [1] [1]).2.2.2.2 hO
      (by norm_num [chiScaled]),
    (c7_calibration_guards_and_persistence 1 eulerVecsOk [0] [] [-1] [1]).2.2.2.1 hO
      (by norm_num [chiScaled])⟩

/-- C8 (code bug, evaluation at the failing input): line 429 of SS.py stores
`np.array(infodict['fvec']).max()` — the signed maximum, without
`np.absolute` — as the reported Euler error of the final per-type pass, while
the adjacent diagnostic print on line 430 takes `np.absolute(...).max()`.
With the root finder returning the residual vector `[-5, 1]`, the reported
error is 1, although the maximum absolute residual is 5. -/
theorem c8_final_pass_reported_error_not_absolute :
    (finalPass fsFinalW 1 1 [[1]] [[1]]).eul_errors = [1] ∧
    listMax (List.map (fun x => |x|) [(-5 : ℚ), 1]) = 5 ∧
    ¬(finalPass fsFinalW 1 1 [[1]] [[1]]).eul_errors =
      [listMax (List.map (fun x => |x|) [(-5 : ℚ), 1])] := by
  have h5 : |(-5 : ℚ)| = 5 := by norm_num
  have h1 : |(1 : ℚ)| = 1 := by norm_num
  refine ⟨?_, ?_, ?_⟩
  · norm_num [finalPass, fsFinalW, listMax, List.range_succ, max_def]
  · simp only [List.map_cons, List.map_nil, h5, h1, listMax, List.foldl]
    norm_num [max_def]
  · simp only [List.map_cons, List.map_nil, h5, h1]
    norm_num [finalPass, fsFinalW, List.range_succ, listMax, List.foldl, max_def]

/-- Counterexample to C9: at a concrete malformed input (`S = 3`, `J = 2` in
the scalar bundle, labor-weight vector of length 1 instead of `S`),
`run_steady_state` does not fail with a descriptive shape-validation error —
it performs no validation at all, failing instead with a `NameError` on the
undefined name `chi_b_params` (SS.py line 837) before any solve, exactly as
it does on any well-formed input. -/
theorem c9_no_entry_validation_counterexample :
    run_steady_state_entry taxParamsW ssParamsBadW [250, 1] ([1, 1], [1]) true false =
      EntryOutcome.nameError "chi_b_params" ∧
    EntryOutcome.isValidation
      (run_steady_state_entry taxParamsW ssParamsBadW [250, 1] ([1, 1], [1]) true false) =
      false ∧
    ¬run_steady_state_entry taxParamsW ssParamsBadW [250, 1] ([1, 1], [1]) true false =
      EntryOutcome.solveStarted := by
  refine ⟨rfl, rfl, by decide⟩

/-- C9 (amended): `run_steady_state` performs no shape or invariant
validation.  On every input whose 21-element scalar bundle unpacks, execution
reaches line 837 and fails there with a `NameError` on the undefined name
`chi_b_params` — an error independent of, and not descriptive of, the
well-formedness of the inputs — before any validation or any solve. -/
theorem c9_entry_always_name_error_amended
    (tax : Bool × List (List ℚ) × List (List ℚ) × List (List ℚ))
    (ssp iterp : List ℚ) (chi : List ℚ × List ℚ) (baseline calibrate : Bool)
    (h : ssp.length = 21) :
    run_steady_state_entry tax ssp iterp chi baseline calibrate =
      EntryOutcome.nameError "chi_b_params" ∧
    EntryOutcome.isValidation
      (run_steady_state_entry tax ssp iterp chi baseline calibrate) = false := by
  constructor
  · simp [run_steady_state_entry, h]
  · simp [run_steady_state_entry, h, EntryOutcome.isValidation]

/-- Witness for the amended C9 at a concrete well-formed-looking input. -/
theorem c9_entry_always_name_error_amended_witness :
    run_steady_state_entry taxParamsW ssParamsOkW [250, 1] ([1, 1], [1, 1, 1]) true false =
      EntryOutcome.nameError "chi_b_params" ∧
    EntryOutcome.isValidation
      (run_steady_state_entry taxParamsW ssParamsOkW [250, 1] ([1, 1], [1, 1, 1]) true
        false) = false := by
  exact c9_entry_always_name_error_amended taxParamsW ssParamsOkW [250, 1]
    ([1, 1], [1, 1, 1]) true false (by decide)

/-- C10: `SS_fsolve` returns exactly the four residuals
`[new_w - w, new_r - r, new_T_H - T_H, new_factor/1e6 - factor/1e6]` (the
scaling-factor residual scaled down by 10^6), except that a guessed interest
rate `r <= 0` adds the penalty 1e9 to the *wage* residual (first component)
and a guessed wage `w <= 0` adds the penalty 1e9 to the *interest-rate*
residual (second component): the punishments are cross-wired relative to the
violating variable's own residual. -/
theorem c10_ss_fsolve_residuals_cross_wired_penalties
    (fsO : ℕ → ℚ → List ℚ → List ℚ) (agg : AggOracle) (S J : ℕ)
    (guesses : List ℚ) (b0 n0 : List (List ℚ)) (nr nw nf nT : ℚ)
    (hagg : agg (innerLoop fsO S (guesses.getD 3 0) b0 n0 J).b
      (innerLoop fsO S (guesses.getD 3 0) b0 n0 J).n (guesses.getD 3 0) =
      (nr, nw, nf, nT)) :
    SS_fsolve fsO agg S J guesses b0 n0 =
      [(if guesses.getD 1 0 ≤ 0 then (nw - guesses.getD 0 0) + 1000000000
        else nw - guesses.getD 0 0),
       (if guesses.getD 0 0 ≤ 0 then (nr - guesses.getD 1 0) + 1000000000
        else nr - guesses.getD 1 0),
       nT - guesses.getD 2 0,
       nf / 1000000 - guesses.getD 3 0 / 1000000] ∧
    (SS_fsolve fsO agg S J guesses b0 n0).length = 4 := by
  constructor
  · simp only [SS_fsolve, hagg]
  · rcases hagg2 : agg (innerLoop fsO S (guesses.getD 3 0) b0 n0 J).b
        (innerLoop fsO S (guesses.getD 3 0) b0 n0 J).n (guesses.getD 3 0) with ⟨a, b, c, d⟩
    simp [SS_fsolve, hagg2]

/-- Witness for C10 at a concrete guess vector with non-positive wage (-1)
and interest rate (-2): both 1e9 punishments fire, on the cross-wired
components. -/
theorem c10_ss_fsolve_residuals_cross_wired_penalties_witness :
    SS_fsolve fsW aggW 1 1 [-1, -2, 3, 4] [[1]] [[1]] =
      [(if (-2 : ℚ) ≤ 0 then (1 - (-1)) + 1000000000 else 1 - (-1)),
       (if (-1 : ℚ) ≤ 0 then (2 - (-2)) + 1000000000 else 2 - (-2)),
       1 - 3,
       1 / 1000000 - 4 / 1000000] := by
  exact (c10_ss_fsolve_residuals_cross_wired_penalties fsW aggW 1 1 [-1, -2, 3, 4]
    [[1]] [[1]] 2 1 1 1 rfl).1
